import Mathlib

/-!
# Verification of the Textract table-extractor add-on

Shallow embedding of `src/main.py` (class `TableExtractor`).  Python
integers are modelled as `Int` (page counts, being non-negative, as `Nat`
coerced where compared), the add-on's configuration dictionary as a record
of `Option` fields (`dict.get` with no default yields `none`), and the
job's observable behaviour (`main`) as the list of events it performs, in
order.  A Python `TypeError` (comparing `None` with an int) is modelled as
an `Except.error` from `calculate_cost` and a terminal `crash` event of
the job.  External collaborators (document store, credit ledger, Textract)
are parameters of the environment: the store gives the selected documents
(or `none` when nothing is selected, mirroring `get_document_count()`
returning `None`), the ledger's outcome is an oracle, and Textract's
per-page table count is a function of (document id, page number).
-/

/-- A document in the platform's store: an identifier and a page count
(`document.id`, `document.page_count` in `main.py`). -/
structure Document where
  id : Nat
  page_count : Nat
deriving DecidableEq, Repr

/-- The add-on's configuration dictionary `self.data`; `none` means the key
is absent.  `main.py` reads `output_format` (default "csv"),
`start_page` (default 1) and `end_page` (default 1 in `main`, **no
default** in `calculate_cost`). -/
structure AddOnData where
  output_format : Option String
  start_page : Option Int
  end_page : Option Int

/-- Outcome of `self.charge_credits`: success, `ValueError` (insufficient
credits) or `APIError` (billing-service error). -/
inductive ChargeOutcome where
  | ok
  | valueError
  | apiError
deriving DecidableEq

/-- Observable events of one job run, in program order. -/
inductive Event where
  /-- `self.set_message(s)` -/
  | message (s : String)
  /-- `sys.exit(0)` — normal, no-op termination -/
  | exitNormal
  /-- an uncaught Python exception (e.g. `TypeError`) kills the job -/
  | crash
  /-- `self.charge_credits(cost)` succeeded: the ledger was debited -/
  | charge (cost : Int)
  /-- page image downloaded and converted (`get_large_image` + PNG) -/
  | renderPage (docId : Nat) (page : Int)
  /-- `extractor.analyze_document` on that page -/
  | analyze (docId : Nat) (page : Int)
  /-- a table file written into the `tables` subdirectory -/
  | writeFile (name : List Char)
  /-- `all_tables.zip` written, with the given entry names -/
  | archive (entries : List (List Char))
  /-- `self.upload_file` of the archive -/
  | upload
deriving DecidableEq, Repr

/-- Message of `validate` when `get_document_count()` is `None`. -/
def noDocumentsMsg : String :=
  "It looks like no documents were selected. Search for some or select them and run again."

/-- Message of `validate` when there is no organization id. -/
def noOrgMsg : String := "No organization to charge."

/-- Message of `main` when `validate` returns `False`. -/
def insufficientCreditsMsg : String :=
  "You do not have sufficient AI credits to run this Add-On on this document set"

/-- Message of `main` when `end_page < start_page`. -/
def endBeforeStartMsg : String :=
  "The end page you provided is smaller than the start page, try again"

/-- Message of `main` when `start_page < 1`. -/
def startLessThanOneMsg : String := "Your start page is less than 1, please try again"

/-- One iteration of the loop in `calculate_cost`: re-reads
`start_page` (default 1) and `end_page` (no default!), computes
`last_page = end_page if end_page <= doc.page_count else doc.page_count`
and adds `last_page - start_page + 1` to the accumulator.  When
`end_page` is absent the comparison `None <= doc.page_count` raises
`TypeError`, modelled as the error case. -/
def costStep (data : AddOnData) (acc : Except String Int) (doc : Document) :
    Except String Int :=
  match acc with
  | .error msg => .error msg
  | .ok total =>
    match data.end_page with
    | none => .error "TypeError: unorderable types NoneType and int"
    | some e =>
      let s := data.start_page.getD 1
      let last : Int := if e ≤ (doc.page_count : Int) then e else (doc.page_count : Int)
      .ok (total + (last - s + 1))

/-- `TableExtractor.calculate_cost`: sums `pages_to_analyze` over the
documents and multiplies by 10.  Pure — no side effects. -/
def calculate_cost (data : AddOnData) (documents : List Document) :
    Except String Int :=
  match documents.foldl (costStep data) (.ok 0) with
  | .error msg => .error msg
  | .ok total => .ok (total * 10)

/-- The collaborators and configuration of one job run. -/
structure Env where
  data : AddOnData
  /-- the selected documents; `none` models `get_document_count()` being
  `None` (no selection) -/
  documents : Option (List Document)
  /-- whether `self.org_id` is truthy -/
  org_id : Bool
  /-- outcome of the single `charge_credits` call -/
  chargeResult : ChargeOutcome
  /-- number of tables Textract detects on (document id, page number) -/
  tables : Nat → Int → Nat

/-- Result of `TableExtractor.validate`: it may `sys.exit(0)` (with the
trace of events it performed), crash with an uncaught `TypeError`, or
return a boolean after possibly charging credits. -/
inductive VResult where
  | exited (tr : List Event)
  | crashed (tr : List Event)
  | done (tr : List Event) (ok : Bool)

/-- `TableExtractor.validate`: no-documents check, organization check,
cost computation, then a single `charge_credits` guarded by
`except ValueError` / `except APIError` handlers that both return
`False`.  A successful charge debits the ledger exactly once. -/
def validate (env : Env) : VResult :=
  match env.documents with
  | none => .exited [.message noDocumentsMsg, .exitNormal]
  | some docs =>
    if env.org_id = false then .exited [.message noOrgMsg, .exitNormal]
    else
      match calculate_cost env.data docs with
      | .error _ => .crashed []
      | .ok cost =>
        match env.chargeResult with
        | .ok => .done [.charge cost] true
        | .valueError => .done [] false
        | .apiError => .done [] false

/-- The decimal digit character for `d < 10` (Python's `str` of an int
uses these). -/
def digitChar (d : Nat) : Char := Char.ofNat (48 + d)

/-- Python `str(n)` for a non-negative integer, as a character list:
most-significant digit first, `"0"` for zero. -/
def natRepr (n : Nat) : List Char :=
  if n = 0 then ['0'] else (Nat.digits 10 n).reverse.map digitChar

/-- Python `str(p)` for an arbitrary integer (a leading `-` when
negative). -/
def intRepr (p : Int) : List Char :=
  if p < 0 then '-' :: natRepr (-p).toNat else natRepr p.toNat

/-- The f-string `f"{document.id}-{page_number}-table{i}"` plus the
extension chosen by `output_format == "csv"`. -/
def tableFilename (fmt : String) (docId : Nat) (page : Int) (i : Nat) :
    List Char :=
  natRepr docId ++ ('-' :: intRepr page) ++ "-table".data ++ natRepr i ++
    (if fmt = "csv" then ".csv".data else ".xlsx".data)

/-- Python `range(lo, hi)` over integers: `lo, lo+1, …, hi-1` (empty when
`hi ≤ lo`). -/
def intRange (lo hi : Int) : List Int :=
  (List.range (hi - lo).toNat).map (fun k : Nat => lo + (k : Int))

/-- The pages of one document visited by `main`'s inner loop:
`outer_bound = end_page + 1`, lowered to `document.page_count + 1` when
`end_page > document.page_count`, then `range(start_page, outer_bound)`. -/
def pagesFor (s e : Int) (doc : Document) : List Int :=
  let outer : Int :=
    if e > (doc.page_count : Int) then (doc.page_count : Int) + 1 else e + 1
  intRange s outer

/-- The body of `main`'s per-page loop: download + convert the page image,
analyze it, and write one file per detected table (`csv` branch and the
`xlsx` branch differ only in the filename extension). -/
def processPage (tables : Nat → Int → Nat) (fmt : String) (doc : Document)
    (p : Int) : List Event :=
  [.renderPage doc.id p, .analyze doc.id p] ++
    (List.range (tables doc.id p)).map
      (fun i => .writeFile (tableFilename fmt doc.id p i))

/-- The per-document loop of `main`. -/
def processDoc (tables : Nat → Int → Nat) (fmt : String) (s e : Int)
    (doc : Document) : List Event :=
  (pagesFor s e doc).flatMap (processPage tables fmt doc)

/-- Names of the files written into the `tables` subdirectory by a trace. -/
def writtenNames (tr : List Event) : List (List Char) :=
  tr.filterMap (fun ev => match ev with | .writeFile n => some n | _ => none)

/-- The (document id, page) pairs analyzed by a trace, in order. -/
def analyzedPages (tr : List Event) : List (Nat × Int) :=
  tr.filterMap (fun ev => match ev with | .analyze d p => some (d, p) | _ => none)

/-- Net credits debited in a trace (there is no refund operation). -/
def chargedTotal (tr : List Event) : Int :=
  (tr.filterMap (fun ev => match ev with | .charge c => some c | _ => none)).sum

/-- Number of archive-write events in a trace. -/
def archiveCount (tr : List Event) : Nat :=
  tr.countP (fun ev => match ev with | .archive _ => true | _ => false)

/-- `TableExtractor.main`: read the configuration (here `end_page`
defaults to 1), validate-and-charge, range checks, per-document/per-page
processing, then a single zip of everything under `tables` (entry paths
relative to `tables`, so an entry is just the file's name) and one
upload. -/
def main_run (env : Env) : List Event :=
  let fmt := env.data.output_format.getD "csv"
  let s := env.data.start_page.getD 1
  let e := env.data.end_page.getD 1
  match validate env with
  | .exited tr => tr
  | .crashed tr => tr ++ [.crash]
  | .done tr ok =>
    if ok = false then tr ++ [.message insufficientCreditsMsg, .exitNormal]
    else if e < s then tr ++ [.message endBeforeStartMsg, .exitNormal]
    else if s < 1 then tr ++ [.message startLessThanOneMsg, .exitNormal]
    else
      let docs := env.documents.getD []
      let body := docs.flatMap (processDoc env.tables fmt s e)
      tr ++ (body ++ [.archive (writtenNames body).dedup, .upload])

/-! ## Basic lemmas about the cost fold and page ranges -/

theorem foldl_costStep (data : AddOnData) (e : Int)
    (h : data.end_page = some e) (docs : List Document) (t : Int) :
    docs.foldl (costStep data) (.ok t) =
      .ok (t + (docs.map
        (fun d => min e (d.page_count : Int) - data.start_page.getD 1 + 1)).sum) := by
  induction docs generalizing t with
  | nil => simp
  | cons d ds ih =>
    simp only [List.foldl_cons, List.map_cons, List.sum_cons]
    rw [show costStep data (.ok t) d =
        .ok (t + (min e (d.page_count : Int) - data.start_page.getD 1 + 1)) by
      simp [costStep, h, min_def]]
    rw [ih]
    rw [add_assoc]

theorem calculate_cost_eq (data : AddOnData) (e : Int)
    (h : data.end_page = some e) (docs : List Document) :
    calculate_cost data docs =
      .ok ((docs.map
        (fun d => min e (d.page_count : Int) - data.start_page.getD 1 + 1)).sum * 10) := by
  unfold calculate_cost
  rw [foldl_costStep data e h docs 0]
  simp

theorem mem_intRange {lo hi p : Int} : p ∈ intRange lo hi ↔ lo ≤ p ∧ p < hi := by
  unfold intRange
  simp only [List.mem_map, List.mem_range]
  constructor
  · rintro ⟨k, hk, rfl⟩
    omega
  · rintro ⟨h1, h2⟩
    exact ⟨(p - lo).toNat, by omega, by omega⟩

theorem length_intRange (lo hi : Int) :
    (intRange lo hi).length = (hi - lo).toNat := by
  rw [intRange, List.length_map, List.length_range]

theorem intRange_sorted (lo hi : Int) :
    (intRange lo hi).Pairwise (· < ·) := by
  rw [intRange, List.pairwise_map]
  refine (List.pairwise_lt_range _).imp ?_
  intro a b h
  omega

theorem pagesFor_eq (s e : Int) (doc : Document) :
    pagesFor s e doc = intRange s (min e (doc.page_count : Int) + 1) := by
  unfold pagesFor
  rcases le_or_lt e (doc.page_count : Int) with h | h
  · simp [not_lt.mpr h, min_eq_left h]
  · simp [h, min_eq_right h.le]

/-! ## Trace helper lemmas -/

/-- The processing phase of a successful run, as a function of the
environment. -/
def jobBody (env : Env) : List Event :=
  (env.documents.getD []).flatMap
    (processDoc env.tables (env.data.output_format.getD "csv")
      (env.data.start_page.getD 1) (env.data.end_page.getD 1))

theorem main_run_success (env : Env) (docs : List Document) (e : Int)
    (h1 : env.documents = some docs) (h2 : env.org_id = true)
    (h3 : env.chargeResult = .ok) (h4 : env.data.end_page = some e)
    (h5 : env.data.start_page.getD 1 ≤ e)
    (h6 : 1 ≤ env.data.start_page.getD 1) :
    main_run env =
      .charge ((docs.map
          (fun d => min e (d.page_count : Int) - env.data.start_page.getD 1 + 1)).sum * 10) ::
        (jobBody env ++ [.archive (writtenNames (jobBody env)).dedup, .upload]) := by
  unfold main_run jobBody
  rw [validate, h1]
  simp only [h2, Bool.true_eq_false, if_false, calculate_cost_eq env.data e h4, h3, h4,
    Option.getD_some, h1]
  rw [if_neg (by omega), if_neg (by omega)]
  simp

theorem analyzedPages_processPage (T : Nat → Int → Nat) (fmt : String)
    (doc : Document) (p : Int) :
    analyzedPages (processPage T fmt doc p) = [(doc.id, p)] := by
  simp [analyzedPages, processPage, List.filterMap_append, List.filterMap_map,
    Function.comp]

theorem analyzedPages_append (tr1 tr2 : List Event) :
    analyzedPages (tr1 ++ tr2) = analyzedPages tr1 ++ analyzedPages tr2 := by
  simp [analyzedPages, List.filterMap_append]

theorem writtenNames_append (tr1 tr2 : List Event) :
    writtenNames (tr1 ++ tr2) = writtenNames tr1 ++ writtenNames tr2 := by
  simp [writtenNames, List.filterMap_append]

theorem analyzedPages_flatMap {α : Type} (l : List α) (f : α → List Event) :
    analyzedPages (l.flatMap f) = l.flatMap (fun a => analyzedPages (f a)) := by
  induction l with
  | nil => rfl
  | cons a l ih => simp [List.flatMap_cons, analyzedPages_append, ih]

theorem writtenNames_flatMap {α : Type} (l : List α) (f : α → List Event) :
    writtenNames (l.flatMap f) = l.flatMap (fun a => writtenNames (f a)) := by
  induction l with
  | nil => rfl
  | cons a l ih => simp [List.flatMap_cons, writtenNames_append, ih]

theorem writtenNames_processPage (T : Nat → Int → Nat) (fmt : String)
    (doc : Document) (p : Int) :
    writtenNames (processPage T fmt doc p) =
      (List.range (T doc.id p)).map (tableFilename fmt doc.id p) := by
  simp only [writtenNames, processPage, List.filterMap_append, List.filterMap_map,
    Function.comp_def, List.filterMap_cons, List.filterMap_nil]
  induction List.range (T doc.id p) with
  | nil => rfl
  | cons i l ih => simpa [List.filterMap_cons] using ih

theorem analyzedPages_processDoc (T : Nat → Int → Nat) (fmt : String)
    (s e : Int) (doc : Document) :
    analyzedPages (processDoc T fmt s e doc) =
      (pagesFor s e doc).map (fun p => (doc.id, p)) := by
  rw [processDoc, analyzedPages_flatMap]
  simp only [analyzedPages_processPage]
  induction pagesFor s e doc with
  | nil => rfl
  | cons p l ih => simpa using ih

theorem writtenNames_processDoc (T : Nat → Int → Nat) (fmt : String)
    (s e : Int) (doc : Document) :
    writtenNames (processDoc T fmt s e doc) =
      (pagesFor s e doc).flatMap
        (fun p => (List.range (T doc.id p)).map (tableFilename fmt doc.id p)) := by
  rw [processDoc, writtenNames_flatMap]
  simp [writtenNames_processPage]

/-! ## Claim theorems: cost estimation (C1, C2, C3) -/

/-- C1: with `start_page` and `end_page` both configured, `calculate_cost`
returns `(Σ_documents (min(end_page, page_count) − start_page + 1)) * 10`;
the per-document term is not clamped, so it may be zero or negative.  The
embedding of `calculate_cost` is a pure Lean function, so the computation
has no side effects. -/
theorem cost_is_sum_of_unclamped_terms_times_ten (data : AddOnData)
    (docs : List Document) (s e : Int)
    (hs : data.start_page = some s) (he : data.end_page = some e) :
    calculate_cost data docs =
      .ok ((docs.map (fun d => min e (d.page_count : Int) - s + 1)).sum * 10) := by
  have := calculate_cost_eq data e he docs
  rwa [hs, Option.getD_some] at this

theorem cost_is_sum_of_unclamped_terms_times_ten_witness :
    calculate_cost ⟨none, some 2, some 3⟩ [⟨7, 5⟩] =
      .ok ((([⟨7, 5⟩] : List Document).map
        (fun d => min 3 (d.page_count : Int) - 2 + 1)).sum * 10) :=
  cost_is_sum_of_unclamped_terms_times_ten ⟨none, some 2, some 3⟩ [⟨7, 5⟩] 2 3 rfl rfl

/-- C2 (counterexample): with two documents of page counts 10 and 1,
`start_page = 3`, `end_page = 5`, a run charges 20 credits, while the sum
of the clamped per-document page counts times 10 is 30 — the cost charged
is **not** the clamped sum. -/
theorem charged_cost_differs_from_clamped_formula_cex :
    chargedTotal (main_run ⟨⟨none, some 3, some 5⟩, some [⟨1, 10⟩, ⟨2, 1⟩],
        true, .ok, fun _ _ => 0⟩) = 20 ∧
    (([⟨1, 10⟩, ⟨2, 1⟩] : List Document).map
        (fun d => max 0 (min 5 (d.page_count : Int) - 3 + 1))).sum * 10 = 30 ∧
    (20 : Int) ≠ 30 := by
  refine ⟨?_, by decide, by decide⟩
  rfl

/-- C2 (amended): the number of pages actually analyzed per document is
the clamped `max 0 (min e P − s + 1)`, but the credit cost is computed
from the **unclamped** per-document terms `min e P − s + 1` (which may be
negative), summed and multiplied by 10. -/
theorem pages_clamped_but_cost_unclamped (data : AddOnData)
    (docs : List Document) (s e : Int)
    (hs : data.start_page = some s) (he : data.end_page = some e) :
    (∀ doc : Document, ((pagesFor s e doc).length : Int) =
      max 0 (min e (doc.page_count : Int) - s + 1)) ∧
    calculate_cost data docs =
      .ok ((docs.map (fun d => min e (d.page_count : Int) - s + 1)).sum * 10) := by
  constructor
  · intro doc
    rw [pagesFor_eq, length_intRange]
    omega
  · have := calculate_cost_eq data e he docs
    rwa [hs, Option.getD_some] at this

theorem pages_clamped_but_cost_unclamped_witness :
    (∀ doc : Document, ((pagesFor 3 5 doc).length : Int) =
      max 0 (min 5 (doc.page_count : Int) - 3 + 1)) ∧
    calculate_cost ⟨none, some 3, some 5⟩ [⟨1, 10⟩, ⟨2, 1⟩] =
      .ok ((([⟨1, 10⟩, ⟨2, 1⟩] : List Document).map
        (fun d => min 5 (d.page_count : Int) - 3 + 1)).sum * 10) :=
  pages_clamped_but_cost_unclamped ⟨none, some 3, some 5⟩ [⟨1, 10⟩, ⟨2, 1⟩] 3 5 rfl rfl

/-- C3: when `end_page < start_page` and the charge succeeds, the run's
whole trace is: charge the (unvalidated) cost, then the end-before-start
message, then a normal exit — the charge precedes the range check, nothing
follows the abort, and the net amount debited stays the full cost. -/
theorem charge_happens_before_range_validation (env : Env)
    (docs : List Document) (e : Int)
    (h1 : env.documents = some docs) (h2 : env.org_id = true)
    (h3 : env.chargeResult = .ok) (h4 : env.data.end_page = some e)
    (h5 : e < env.data.start_page.getD 1) :
    main_run env =
      [.charge ((docs.map
          (fun d => min e (d.page_count : Int) - env.data.start_page.getD 1 + 1)).sum * 10),
       .message endBeforeStartMsg, .exitNormal] ∧
    chargedTotal (main_run env) =
      (docs.map
        (fun d => min e (d.page_count : Int) - env.data.start_page.getD 1 + 1)).sum * 10 := by
  have hmain : main_run env =
      [.charge ((docs.map
          (fun d => min e (d.page_count : Int) - env.data.start_page.getD 1 + 1)).sum * 10),
       .message endBeforeStartMsg, .exitNormal] := by
    unfold main_run
    rw [validate, h1]
    simp only [h2, Bool.true_eq_false, if_false, calculate_cost_eq env.data e h4, h3, h4,
      Option.getD_some]
    rw [if_pos h5]
    simp
  refine ⟨hmain, ?_⟩
  rw [hmain]
  simp [chargedTotal]

theorem charge_happens_before_range_validation_witness :
    main_run ⟨⟨none, some 5, some 2⟩, some [⟨1, 5⟩], true, .ok, fun _ _ => 0⟩ =
      [.charge ((([⟨1, 5⟩] : List Document).map
          (fun d => min 2 (d.page_count : Int) - 5 + 1)).sum * 10),
       .message endBeforeStartMsg, .exitNormal] ∧
    chargedTotal (main_run ⟨⟨none, some 5, some 2⟩, some [⟨1, 5⟩], true, .ok, fun _ _ => 0⟩) =
      (([⟨1, 5⟩] : List Document).map
        (fun d => min 2 (d.page_count : Int) - 5 + 1)).sum * 10 :=
  charge_happens_before_range_validation _ [⟨1, 5⟩] 2 rfl rfl rfl rfl (by decide)

/-! ## Claim theorem: processing order (C4) -/

/-- C4: in a validated run (range checks passed, charge succeeded) the
analyzed (document, page) pairs are exactly the documents in store order,
and within each document the pages from `start_page` up to
`min(end_page, page_count)` in ascending order; a document whose clamped
bound falls below `start_page` contributes no pages and the run does not
abort for it. -/
theorem documents_processed_in_order_pages_ascending (env : Env)
    (docs : List Document) (e : Int)
    (h1 : env.documents = some docs) (h2 : env.org_id = true)
    (h3 : env.chargeResult = .ok) (h4 : env.data.end_page = some e)
    (h5 : env.data.start_page.getD 1 ≤ e)
    (h6 : 1 ≤ env.data.start_page.getD 1) :
    analyzedPages (main_run env) =
      docs.flatMap (fun d =>
        (pagesFor (env.data.start_page.getD 1) e d).map (fun p => (d.id, p))) ∧
    (∀ d : Document, ∀ p : Int,
      p ∈ pagesFor (env.data.start_page.getD 1) e d ↔
        env.data.start_page.getD 1 ≤ p ∧ p ≤ min e (d.page_count : Int)) ∧
    (∀ d : Document,
      (pagesFor (env.data.start_page.getD 1) e d).Pairwise (· < ·)) ∧
    (∀ d : Document, min e (d.page_count : Int) < env.data.start_page.getD 1 →
      pagesFor (env.data.start_page.getD 1) e d = []) := by
  refine ⟨?_, ?_, ?_, ?_⟩
  · rw [main_run_success env docs e h1 h2 h3 h4 h5 h6]
    have : analyzedPages (Event.charge ((docs.map
        (fun d => min e (d.page_count : Int) - env.data.start_page.getD 1 + 1)).sum * 10) ::
          (jobBody env ++ [.archive (writtenNames (jobBody env)).dedup, .upload])) =
        analyzedPages (jobBody env) := by
      simp [analyzedPages, List.filterMap_append]
    rw [this, jobBody, h1, Option.getD_some, h4, Option.getD_some,
      analyzedPages_flatMap]
    simp [analyzedPages_processDoc]
  · intro d p
    rw [pagesFor_eq, mem_intRange]
    omega
  · intro d
    rw [pagesFor_eq]
    exact intRange_sorted _ _
  · intro d hlt
    rw [pagesFor_eq]
    have : (intRange (env.data.start_page.getD 1) (min e (d.page_count : Int) + 1)).length = 0 := by
      rw [length_intRange]
      omega
    exact List.eq_nil_of_length_eq_zero this

theorem documents_processed_in_order_pages_ascending_witness :
    (analyzedPages (main_run ⟨⟨none, some 2, some 3⟩, some [⟨4, 5⟩, ⟨9, 1⟩],
        true, .ok, fun _ _ => 1⟩) =
      ([⟨4, 5⟩, ⟨9, 1⟩] : List Document).flatMap (fun d =>
        (pagesFor 2 3 d).map (fun p => (d.id, p))) ∧
    (∀ d : Document, ∀ p : Int,
      p ∈ pagesFor 2 3 d ↔ 2 ≤ p ∧ p ≤ min 3 (d.page_count : Int)) ∧
    (∀ d : Document, (pagesFor 2 3 d).Pairwise (· < ·)) ∧
    (∀ d : Document, min 3 (d.page_count : Int) < 2 → pagesFor 2 3 d = [])) :=
  documents_processed_in_order_pages_ascending
    ⟨⟨none, some 2, some 3⟩, some [⟨4, 5⟩, ⟨9, 1⟩], true, .ok, fun _ _ => 1⟩
    [⟨4, 5⟩, ⟨9, 1⟩] 3 rfl rfl rfl rfl (by decide) (by decide)

/-! ## Decimal representation: round-trip, injectivity, character range -/

/-- Inverse of `digitChar` on decimal digits. -/
def charVal (c : Char) : Nat := c.toNat - 48

/-- Decoder for the decimal string produced by `natRepr`. -/
def natReprVal (l : List Char) : Nat := Nat.ofDigits 10 ((l.map charVal).reverse)

theorem charVal_digitChar {d : Nat} (hd : d < 10) : charVal (digitChar d) = d := by
  interval_cases d <;> rfl

theorem natReprVal_natRepr (n : Nat) : natReprVal (natRepr n) = n := by
  by_cases hn : n = 0
  · subst hn
    rfl
  · rw [natRepr, if_neg hn, natReprVal, List.map_map, List.map_reverse,
      List.reverse_reverse]
    have hmap : (Nat.digits 10 n).map (charVal ∘ digitChar) = Nat.digits 10 n := by
      rw [List.map_congr_left, List.map_id]
      intro d hd
      exact charVal_digitChar (Nat.digits_lt_base (by norm_num) hd)
    rw [hmap, Nat.ofDigits_digits]

theorem natRepr_injective : Function.Injective natRepr :=
  Function.LeftInverse.injective natReprVal_natRepr

theorem digitChar_toNat {d : Nat} (hd : d < 10) : (digitChar d).toNat = 48 + d := by
  interval_cases d <;> rfl

theorem toNat_mem_natRepr {n : Nat} {c : Char} (hc : c ∈ natRepr n) :
    48 ≤ c.toNat ∧ c.toNat ≤ 57 := by
  rw [natRepr] at hc
  by_cases hn : n = 0
  · rw [if_pos hn] at hc
    simp only [List.mem_singleton] at hc
    subst hc
    exact ⟨le_refl _, by decide⟩
  · rw [if_neg hn] at hc
    rcases List.mem_map.1 hc with ⟨d, hd, rfl⟩
    have hd10 : d < 10 := Nat.digits_lt_base (by norm_num) (List.mem_reverse.1 hd)
    rw [digitChar_toNat hd10]
    omega

theorem dash_not_mem_natRepr (n : Nat) : '-' ∉ natRepr n := by
  intro h
  have hb := toNat_mem_natRepr h
  have : ('-').toNat = 45 := rfl
  omega

theorem slash_not_mem_natRepr (n : Nat) : '/' ∉ natRepr n := by
  intro h
  have hb := toNat_mem_natRepr h
  have : ('/').toNat = 47 := rfl
  omega

/-- Splitting a string at its first dash is unambiguous when the part
before the dash contains no dash. -/
theorem append_dash_cons_inj {a1 a2 b1 b2 : List Char}
    (h1 : '-' ∉ a1) (h2 : '-' ∉ a2)
    (h : a1 ++ '-' :: b1 = a2 ++ '-' :: b2) : a1 = a2 ∧ b1 = b2 := by
  induction a1 generalizing a2 with
  | nil =>
    cases a2 with
    | nil => simpa using h
    | cons c a2' =>
      simp only [List.nil_append, List.cons_append, List.cons.injEq] at h
      exact absurd (h.1 ▸ List.mem_cons_self c a2') h2
  | cons c1 a1' ih =>
    cases a2 with
    | nil =>
      simp only [List.cons_append, List.nil_append, List.cons.injEq] at h
      exact absurd (h.1 ▸ List.mem_cons_self c1 a1') h1
    | cons c2 a2' =>
      simp only [List.cons_append, List.cons.injEq] at h
      obtain ⟨rfl, h⟩ := h
      have := ih (fun hm => h1 (List.mem_cons_of_mem _ hm))
        (fun hm => h2 (List.mem_cons_of_mem _ hm)) h
      exact ⟨by rw [this.1], this.2⟩

/-! ## Filename uniqueness -/

theorem tableFilename_nested (fmt : String) (d : Nat) (p : Int) (i : Nat)
    (hp : 0 ≤ p) :
    tableFilename fmt d p i =
      natRepr d ++ '-' :: (natRepr p.toNat ++ '-' ::
        ("table".data ++ (natRepr i ++
          (if fmt = "csv" then ".csv".data else ".xlsx".data)))) := by
  rw [tableFilename, intRepr, if_neg (by omega)]
  simp only [List.append_assoc, List.cons_append]

theorem tableFilename_inj (fmt : String) {d1 d2 : Nat} {p1 p2 : Int}
    {i1 i2 : Nat} (hp1 : 0 ≤ p1) (hp2 : 0 ≤ p2)
    (h : tableFilename fmt d1 p1 i1 = tableFilename fmt d2 p2 i2) :
    d1 = d2 ∧ p1 = p2 ∧ i1 = i2 := by
  rw [tableFilename_nested fmt d1 p1 i1 hp1,
    tableFilename_nested fmt d2 p2 i2 hp2] at h
  obtain ⟨hd, h⟩ := append_dash_cons_inj (dash_not_mem_natRepr d1)
    (dash_not_mem_natRepr d2) h
  obtain ⟨hp, h⟩ := append_dash_cons_inj (dash_not_mem_natRepr p1.toNat)
    (dash_not_mem_natRepr p2.toNat) h
  have hi : natRepr i1 = natRepr i2 := by
    have h' := List.append_cancel_left h
    exact List.append_cancel_right h'
  refine ⟨natRepr_injective hd, ?_, natRepr_injective hi⟩
  have := natRepr_injective hp
  omega

theorem writtenNames_jobBody (env : Env) (docs : List Document) (e : Int)
    (h1 : env.documents = some docs) (h4 : env.data.end_page = some e) :
    writtenNames (jobBody env) =
      docs.flatMap (fun d =>
        (pagesFor (env.data.start_page.getD 1) e d).flatMap (fun p =>
          (List.range (env.tables d.id p)).map
            (tableFilename (env.data.output_format.getD "csv") d.id p))) := by
  rw [jobBody, h1, Option.getD_some, h4, Option.getD_some, writtenNames_flatMap]
  simp [writtenNames_processDoc]

theorem page_nonneg_of_mem {s e : Int} (hs : 1 ≤ s) (d : Document) {p : Int}
    (hp : p ∈ pagesFor s e d) : 0 ≤ p := by
  rw [pagesFor_eq, mem_intRange] at hp
  omega

theorem nodup_written_of_nodup_ids (T : Nat → Int → Nat) (fmt : String)
    (s e : Int) (docs : List Document) (hs : 1 ≤ s)
    (hids : (docs.map Document.id).Nodup) :
    (docs.flatMap (fun d => (pagesFor s e d).flatMap (fun p =>
      (List.range (T d.id p)).map (tableFilename fmt d.id p)))).Nodup := by
  rw [List.nodup_flatMap]
  constructor
  · intro d _
    rw [List.nodup_flatMap]
    constructor
    · intro p hp
      refine List.Nodup.map_on ?_ (List.nodup_range _)
      intro i1 _ i2 _ heq
      exact (tableFilename_inj fmt (page_nonneg_of_mem hs d hp)
        (page_nonneg_of_mem hs d hp) heq).2.2
    · refine List.Pairwise.imp_of_mem ?_ (pagesFor_eq s e d ▸ intRange_sorted _ _)
      intro p1 p2 hp1 hp2 hlt
      rw [Function.onFun, List.disjoint_left]
      intro x hx1 hx2
      rcases List.mem_map.1 hx1 with ⟨i1, _, rfl⟩
      rcases List.mem_map.1 hx2 with ⟨i2, _, heq⟩
      have := (tableFilename_inj fmt (page_nonneg_of_mem hs d hp2)
        (page_nonneg_of_mem hs d hp1) heq).2.1
      omega
  · have hpw : docs.Pairwise (fun d1 d2 => d1.id ≠ d2.id) := by
      rw [List.Nodup, List.pairwise_map] at hids
      exact hids
    refine List.Pairwise.imp_of_mem ?_ hpw
    intro d1 d2 _ _ hne
    rw [Function.onFun, List.disjoint_left]
    intro x hx1 hx2
    rcases List.mem_flatMap.1 hx1 with ⟨p1, hp1, hx1'⟩
    rcases List.mem_flatMap.1 hx2 with ⟨p2, hp2, hx2'⟩
    rcases List.mem_map.1 hx1' with ⟨i1, _, rfl⟩
    rcases List.mem_map.1 hx2' with ⟨i2, _, heq⟩
    exact hne ((tableFilename_inj fmt (page_nonneg_of_mem hs d2 hp2)
      (page_nonneg_of_mem hs d1 hp1) heq).1).symm

theorem writtenNames_main_run (env : Env) (docs : List Document) (e : Int)
    (h1 : env.documents = some docs) (h2 : env.org_id = true)
    (h3 : env.chargeResult = .ok) (h4 : env.data.end_page = some e)
    (h5 : env.data.start_page.getD 1 ≤ e)
    (h6 : 1 ≤ env.data.start_page.getD 1) :
    writtenNames (main_run env) = writtenNames (jobBody env) := by
  rw [main_run_success env docs e h1 h2 h3 h4 h5 h6]
  simp [writtenNames, List.filterMap_append]

/-! ## Claim theorem: filename format and uniqueness (C5) -/

/-- C5: a table at index `i` on page `p` of document `d` is written as
`{d}-{p}-table{i}.csv` when the configured format is `"csv"` and as
`{d}-{p}-table{i}.xlsx` for any other format value; the filename map is
injective on (document id, page, index) triples (pages being ≥ 0 in any
validated run), and in a run over documents with pairwise-distinct ids no
filename — hence no triple — recurs. -/
theorem filenames_deterministic_and_unique (env : Env) (docs : List Document)
    (e : Int)
    (h1 : env.documents = some docs) (h2 : env.org_id = true)
    (h3 : env.chargeResult = .ok) (h4 : env.data.end_page = some e)
    (h5 : env.data.start_page.getD 1 ≤ e)
    (h6 : 1 ≤ env.data.start_page.getD 1)
    (hids : (docs.map Document.id).Nodup) :
    (∀ (d : Nat) (p : Int) (i : Nat),
      tableFilename "csv" d p i =
        natRepr d ++ '-' :: intRepr p ++ "-table".data ++ natRepr i ++ ".csv".data) ∧
    (∀ fmt : String, fmt ≠ "csv" → ∀ (d : Nat) (p : Int) (i : Nat),
      tableFilename fmt d p i =
        natRepr d ++ '-' :: intRepr p ++ "-table".data ++ natRepr i ++ ".xlsx".data) ∧
    (∀ (fmt : String) (d1 d2 : Nat) (p1 p2 : Int) (i1 i2 : Nat),
      0 ≤ p1 → 0 ≤ p2 → (d1, p1, i1) ≠ (d2, p2, i2) →
      tableFilename fmt d1 p1 i1 ≠ tableFilename fmt d2 p2 i2) ∧
    (writtenNames (main_run env)).Nodup := by
  refine ⟨?_, ?_, ?_, ?_⟩
  · intro d p i
    rw [tableFilename, if_pos rfl]
  · intro fmt hf d p i
    rw [tableFilename, if_neg hf]
  · intro fmt d1 d2 p1 p2 i1 i2 hp1 hp2 hne heq
    obtain ⟨hd, hp, hi⟩ := tableFilename_inj fmt hp1 hp2 heq
    exact hne (by rw [hd, hp, hi])
  · rw [writtenNames_main_run env docs e h1 h2 h3 h4 h5 h6,
      writtenNames_jobBody env docs e h1 h4]
    exact nodup_written_of_nodup_ids env.tables _ _ e docs h6 hids

theorem filenames_deterministic_and_unique_witness :
    (∀ (d : Nat) (p : Int) (i : Nat),
      tableFilename "csv" d p i =
        natRepr d ++ '-' :: intRepr p ++ "-table".data ++ natRepr i ++ ".csv".data) ∧
    (∀ fmt : String, fmt ≠ "csv" → ∀ (d : Nat) (p : Int) (i : Nat),
      tableFilename fmt d p i =
        natRepr d ++ '-' :: intRepr p ++ "-table".data ++ natRepr i ++ ".xlsx".data) ∧
    (∀ (fmt : String) (d1 d2 : Nat) (p1 p2 : Int) (i1 i2 : Nat),
      0 ≤ p1 → 0 ≤ p2 → (d1, p1, i1) ≠ (d2, p2, i2) →
      tableFilename fmt d1 p1 i1 ≠ tableFilename fmt d2 p2 i2) ∧
    (writtenNames (main_run ⟨⟨none, some 1, some 2⟩, some [⟨4, 5⟩, ⟨9, 1⟩],
        true, .ok, fun _ _ => 2⟩)).Nodup :=
  filenames_deterministic_and_unique
    ⟨⟨none, some 1, some 2⟩, some [⟨4, 5⟩, ⟨9, 1⟩], true, .ok, fun _ _ => 2⟩
    [⟨4, 5⟩, ⟨9, 1⟩] 2 rfl rfl rfl rfl (by decide) (by decide) (by decide)

/-! ## Claim theorem: archive construction (C6) -/

theorem slash_not_mem_tableFilename (fmt : String) (d : Nat) (p : Int)
    (i : Nat) (hp : 0 ≤ p) : '/' ∉ tableFilename fmt d p i := by
  rw [tableFilename, intRepr, if_neg (by omega)]
  intro h
  rcases List.mem_append.1 h with h | h
  · rcases List.mem_append.1 h with h | h
    · rcases List.mem_append.1 h with h | h
      · rcases List.mem_append.1 h with h | h
        · exact slash_not_mem_natRepr d h
        · rcases List.mem_cons.1 h with h | h
          · exact absurd h (by decide)
          · exact slash_not_mem_natRepr _ h
      · revert h
        decide
    · exact slash_not_mem_natRepr i h
  · by_cases hf : fmt = "csv"
    · rw [if_pos hf] at h
      revert h
      decide
    · rw [if_neg hf] at h
      revert h
      decide

theorem archiveCount_jobBody (env : Env) : archiveCount (jobBody env) = 0 := by
  rw [archiveCount, List.countP_eq_zero]
  intro ev hev
  rcases List.mem_flatMap.1 hev with ⟨d, _, hev⟩
  rcases List.mem_flatMap.1 hev with ⟨p, _, hev⟩
  rw [processPage] at hev
  rcases List.mem_append.1 hev with h | h
  · rcases List.mem_cons.1 h with rfl | h
    · simp
    · rcases List.mem_cons.1 h with rfl | h
      · simp
      · exact absurd h (List.not_mem_nil _)
  · rcases List.mem_map.1 h with ⟨i, _, rfl⟩
    simp

/-- C6: in a validated run the trace consists of the charge and the
processing body followed by exactly one archive event and the upload; no
archive event occurs during processing, the archive's entry set is
exactly the set of names written to the `tables` subdirectory, and every
entry is a bare filename (no `/`, i.e. relative to the subdirectory with
no nested folder). -/
theorem archive_once_after_processing_roundtrip (env : Env)
    (docs : List Document) (e : Int)
    (h1 : env.documents = some docs) (h2 : env.org_id = true)
    (h3 : env.chargeResult = .ok) (h4 : env.data.end_page = some e)
    (h5 : env.data.start_page.getD 1 ≤ e)
    (h6 : 1 ≤ env.data.start_page.getD 1) :
    main_run env =
      (.charge ((docs.map
          (fun d => min e (d.page_count : Int) - env.data.start_page.getD 1 + 1)).sum * 10) ::
        jobBody env) ++
        [.archive ((writtenNames (jobBody env)).dedup), .upload] ∧
    archiveCount (main_run env) = 1 ∧
    archiveCount (.charge ((docs.map
        (fun d => min e (d.page_count : Int) - env.data.start_page.getD 1 + 1)).sum * 10) ::
      jobBody env) = 0 ∧
    (∀ n : List Char, n ∈ (writtenNames (jobBody env)).dedup ↔
      n ∈ writtenNames (main_run env)) ∧
    (∀ n ∈ (writtenNames (jobBody env)).dedup, '/' ∉ n) := by
  have htrace := main_run_success env docs e h1 h2 h3 h4 h5 h6
  have hcount0 : archiveCount (.charge ((docs.map
      (fun d => min e (d.page_count : Int) - env.data.start_page.getD 1 + 1)).sum * 10) ::
      jobBody env) = 0 := by
    rw [archiveCount, List.countP_cons_of_neg _ _ (by simp)]
    exact archiveCount_jobBody env
  refine ⟨by rw [htrace]; simp, ?_, hcount0, ?_, ?_⟩
  · rw [htrace]
    rw [show (Event.charge ((docs.map
        (fun d => min e (d.page_count : Int) - env.data.start_page.getD 1 + 1)).sum * 10) ::
          (jobBody env ++ [.archive ((writtenNames (jobBody env)).dedup), .upload])) =
        (.charge ((docs.map
        (fun d => min e (d.page_count : Int) - env.data.start_page.getD 1 + 1)).sum * 10) ::
          jobBody env) ++ [.archive ((writtenNames (jobBody env)).dedup), .upload] by simp]
    rw [archiveCount, List.countP_append]
    rw [archiveCount] at hcount0
    rw [hcount0]
    rfl
  · intro n
    rw [writtenNames_main_run env docs e h1 h2 h3 h4 h5 h6, List.mem_dedup]
  · intro n hn
    rw [List.mem_dedup, writtenNames_jobBody env docs e h1 h4] at hn
    rcases List.mem_flatMap.1 hn with ⟨d, _, hn⟩
    rcases List.mem_flatMap.1 hn with ⟨p, hp, hn⟩
    rcases List.mem_map.1 hn with ⟨i, _, rfl⟩
    exact slash_not_mem_tableFilename _ _ _ _ (page_nonneg_of_mem h6 d hp)

theorem archive_once_after_processing_roundtrip_witness :
    main_run ⟨⟨none, some 1, some 2⟩, some [⟨4, 5⟩], true, .ok, fun _ _ => 1⟩ =
      (.charge ((([⟨4, 5⟩] : List Document).map
          (fun d => min 2 (d.page_count : Int) - 1 + 1)).sum * 10) ::
        jobBody ⟨⟨none, some 1, some 2⟩, some [⟨4, 5⟩], true, .ok, fun _ _ => 1⟩) ++
        [.archive ((writtenNames (jobBody ⟨⟨none, some 1, some 2⟩, some [⟨4, 5⟩],
            true, .ok, fun _ _ => 1⟩)).dedup), .upload] ∧
    archiveCount (main_run ⟨⟨none, some 1, some 2⟩, some [⟨4, 5⟩], true, .ok,
      fun _ _ => 1⟩) = 1 ∧
    archiveCount (.charge ((([⟨4, 5⟩] : List Document).map
        (fun d => min 2 (d.page_count : Int) - 1 + 1)).sum * 10) ::
      jobBody ⟨⟨none, some 1, some 2⟩, some [⟨4, 5⟩], true, .ok, fun _ _ => 1⟩) = 0 ∧
    (∀ n : List Char, n ∈ (writtenNames (jobBody ⟨⟨none, some 1, some 2⟩,
        some [⟨4, 5⟩], true, .ok, fun _ _ => 1⟩)).dedup ↔
      n ∈ writtenNames (main_run ⟨⟨none, some 1, some 2⟩, some [⟨4, 5⟩],
        true, .ok, fun _ _ => 1⟩)) ∧
    (∀ n ∈ (writtenNames (jobBody ⟨⟨none, some 1, some 2⟩, some [⟨4, 5⟩],
        true, .ok, fun _ _ => 1⟩)).dedup, '/' ∉ n) :=
  archive_once_after_processing_roundtrip
    ⟨⟨none, some 1, some 2⟩, some [⟨4, 5⟩], true, .ok, fun _ _ => 1⟩
    [⟨4, 5⟩] 2 rfl rfl rfl rfl (by decide) (by decide)

/-! ## Claim theorems: defaults and error handling (C7, C8, C9, C10) -/

/-- C7 (the code evaluated at the failing input): with `end_page` absent
from the configuration, `calculate_cost` reads it with **no default**
(`self.data.get("end_page")`) and the comparison `None <= doc.page_count`
raises `TypeError`, so the whole run crashes; it does **not** behave as if
`end_page = 1`.  The same environment with `end_page = 1` runs to
completion.  (`main` itself reads `end_page` with default 1, so the two
reads of the option disagree.) -/
theorem missing_end_page_crashes_instead_of_defaulting :
    main_run ⟨⟨none, none, none⟩, some [⟨1, 5⟩], true, .ok, fun _ _ => 0⟩ =
      [.crash] ∧
    calculate_cost ⟨none, none, none⟩ [⟨1, 5⟩] =
      .error "TypeError: unorderable types NoneType and int" ∧
    main_run ⟨⟨none, none, some 1⟩, some [⟨1, 5⟩], true, .ok, fun _ _ => 0⟩ =
      [.charge 10, .renderPage 1 1, .analyze 1 1, .archive [], .upload] := by
  refine ⟨rfl, rfl, by decide⟩

/-- C8: when no documents are selected (`get_document_count()` is `None`),
the run is exactly the no-documents message followed by a normal exit —
no charge, no page rendered or analyzed, nothing written. -/
theorem no_documents_is_noop_exit (env : Env)
    (h : env.documents = none) :
    main_run env = [.message noDocumentsMsg, .exitNormal] ∧
    chargedTotal (main_run env) = 0 ∧
    analyzedPages (main_run env) = [] ∧
    writtenNames (main_run env) = [] := by
  have htr : main_run env = [.message noDocumentsMsg, .exitNormal] := by
    rw [main_run, validate, h]
  refine ⟨htr, ?_, ?_, ?_⟩ <;> rw [htr] <;> rfl

theorem no_documents_is_noop_exit_witness :
    main_run ⟨⟨none, none, some 1⟩, none, true, .ok, fun _ _ => 0⟩ =
      [.message noDocumentsMsg, .exitNormal] ∧
    chargedTotal (main_run ⟨⟨none, none, some 1⟩, none, true, .ok, fun _ _ => 0⟩) = 0 ∧
    analyzedPages (main_run ⟨⟨none, none, some 1⟩, none, true, .ok, fun _ _ => 0⟩) = [] ∧
    writtenNames (main_run ⟨⟨none, none, some 1⟩, none, true, .ok, fun _ _ => 0⟩) = [] :=
  no_documents_is_noop_exit ⟨⟨none, none, some 1⟩, none, true, .ok, fun _ _ => 0⟩ rfl

/-- C9: an insufficient-balance failure (`ValueError`) and a
billing-service failure (`APIError`) of `charge_credits` produce the very
same run: the insufficient-credits message and a normal exit, with no
charge recorded, no page rendered or analyzed, no file written and no
archive assembled. -/
theorem charge_failure_kinds_handled_identically (env : Env)
    (docs : List Document) (c : Int)
    (h1 : env.documents = some docs) (h2 : env.org_id = true)
    (hcost : calculate_cost env.data docs = .ok c)
    (hfail : env.chargeResult = .valueError ∨ env.chargeResult = .apiError) :
    main_run env = [.message insufficientCreditsMsg, .exitNormal] ∧
    chargedTotal (main_run env) = 0 ∧
    analyzedPages (main_run env) = [] ∧
    writtenNames (main_run env) = [] ∧
    archiveCount (main_run env) = 0 := by
  have htr : main_run env = [.message insufficientCreditsMsg, .exitNormal] := by
    rw [main_run, validate, h1]
    rcases hfail with hf | hf <;>
      simp [h2, hcost, hf]
  refine ⟨htr, ?_, ?_, ?_, ?_⟩ <;> rw [htr] <;> rfl

theorem charge_failure_kinds_handled_identically_witness :
    (main_run ⟨⟨none, none, some 1⟩, some [⟨1, 5⟩], true, .valueError, fun _ _ => 0⟩ =
      [.message insufficientCreditsMsg, .exitNormal] ∧
    chargedTotal (main_run ⟨⟨none, none, some 1⟩, some [⟨1, 5⟩], true, .valueError,
      fun _ _ => 0⟩) = 0 ∧
    analyzedPages (main_run ⟨⟨none, none, some 1⟩, some [⟨1, 5⟩], true, .valueError,
      fun _ _ => 0⟩) = [] ∧
    writtenNames (main_run ⟨⟨none, none, some 1⟩, some [⟨1, 5⟩], true, .valueError,
      fun _ _ => 0⟩) = [] ∧
    archiveCount (main_run ⟨⟨none, none, some 1⟩, some [⟨1, 5⟩], true, .valueError,
      fun _ _ => 0⟩) = 0) :=
  charge_failure_kinds_handled_identically
    ⟨⟨none, none, some 1⟩, some [⟨1, 5⟩], true, .valueError, fun _ _ => 0⟩
    [⟨1, 5⟩] 10 rfl rfl rfl (Or.inl rfl)

/-- C10: a page on which the analysis finds zero tables contributes no
`writeFile` events, and a validated run in which every page yields zero
tables still runs to completion, archiving an empty entry list and
uploading it. -/
theorem zero_tables_still_delivers_empty_archive (env : Env)
    (docs : List Document) (e : Int)
    (h1 : env.documents = some docs) (h2 : env.org_id = true)
    (h3 : env.chargeResult = .ok) (h4 : env.data.end_page = some e)
    (h5 : env.data.start_page.getD 1 ≤ e)
    (h6 : 1 ≤ env.data.start_page.getD 1)
    (hzero : ∀ (d : Nat) (p : Int), env.tables d p = 0) :
    (∀ (d : Document) (p : Int), env.tables d.id p = 0 →
      writtenNames (processPage env.tables (env.data.output_format.getD "csv") d p) = []) ∧
    writtenNames (main_run env) = [] ∧
    main_run env =
      (.charge ((docs.map
          (fun d => min e (d.page_count : Int) - env.data.start_page.getD 1 + 1)).sum * 10) ::
        jobBody env) ++ [.archive [], .upload] := by
  have hwb : writtenNames (jobBody env) = [] := by
    rw [writtenNames_jobBody env docs e h1 h4]
    simp [hzero]
  refine ⟨?_, ?_, ?_⟩
  · intro d p hz
    rw [writtenNames_processPage, hz]
    rfl
  · rw [writtenNames_main_run env docs e h1 h2 h3 h4 h5 h6, hwb]
  · rw [main_run_success env docs e h1 h2 h3 h4 h5 h6, hwb]
    simp

theorem zero_tables_still_delivers_empty_archive_witness :
    ((∀ (d : Document) (p : Int), (fun (_ : Nat) (_ : Int) => 0) d.id p = 0 →
      writtenNames (processPage (fun _ _ => 0) "csv" d p) = []) ∧
    writtenNames (main_run ⟨⟨none, some 1, some 2⟩, some [⟨3, 4⟩], true, .ok,
      fun _ _ => 0⟩) = [] ∧
    main_run ⟨⟨none, some 1, some 2⟩, some [⟨3, 4⟩], true, .ok, fun _ _ => 0⟩ =
      (.charge ((([⟨3, 4⟩] : List Document).map
          (fun d => min 2 (d.page_count : Int) - 1 + 1)).sum * 10) ::
        jobBody ⟨⟨none, some 1, some 2⟩, some [⟨3, 4⟩], true, .ok, fun _ _ => 0⟩) ++
        [.archive [], .upload]) :=
  zero_tables_still_delivers_empty_archive
    ⟨⟨none, some 1, some 2⟩, some [⟨3, 4⟩], true, .ok, fun _ _ => 0⟩
    [⟨3, 4⟩] 2 rfl rfl rfl rfl (by decide) (by decide) (fun _ _ => rfl)
